import Mathlib

/-!
Verification of the dual-channel crossfade playback engine in `rem.js`.

The JavaScript source is shallowly embedded: JS numbers are modelled as
exact rationals (ℚ), DOM elements and Web Audio nodes as explicit record
states, `Math.random()` draws as explicit input streams, and the
rejection-sampling `do … while` loop as a function over a finite list of
draws (returning `none` when the list is exhausted, which models
non-termination of the loop). `setTimeout` callbacks are modelled as a
pending list of scheduled teardowns that can be fired later.
-/

namespace Rem

/-- Truncation toward zero, as JavaScript division underlying `%` uses. -/
def jsTrunc (q : ℚ) : ℤ :=
  if 0 ≤ q then ⌊q⌋ else ⌈q⌉

/-- The JavaScript `%` remainder operator on numbers: `a % b = a - b * trunc (a / b)`.
Its sign follows the dividend `a`, not the divisor. -/
def jsRem (a b : ℚ) : ℚ :=
  a - b * (jsTrunc (a / b) : ℚ)

/-- Model of `String(n).padStart(3, "0")`: pad a decimal rendering to width 3 with zeros. -/
def padStart3 (s : String) : String :=
  if s.length < 3 then String.mk (List.replicate (3 - s.length) '0') ++ s else s

/-- The filename `"vid/" + String(n).padStart(3, "0") + ".mp4"` for clip number `n`. -/
def videoFilename (n : Nat) : String :=
  "vid/" ++ padStart3 (toString n) ++ ".mp4"

/-- The loop body of `precacheVideos`: `for (let i = 0; i < numVideos; i++)`
pushing `vid/NNN.mp4` onto the cache. `numVideos` is an integer so that the
behaviour on non-positive counts is visible. -/
def precacheAux (numVideos : ℤ) (i : Nat) (acc : List String) : List String :=
  if (i : ℤ) < numVideos then precacheAux numVideos (i + 1) (acc ++ [videoFilename (i + 1)])
  else acc
termination_by (numVideos - i).toNat
decreasing_by
  rename_i h
  omega

/-- Model of `precacheVideos(numVideos)` from `rem.js`: builds the ordered list of video
filenames by the counting loop. -/
def precacheVideos (numVideos : ℤ) : List String :=
  precacheAux numVideos 0 []

/-- Modelled from the spec: the catalog-construction contract (`buildCatalog`)
as the specification states it, rejecting `count ≤ 0` as a reported error;
defined for comparison against `precacheVideos`. -/
def buildCatalogSpec (count : ℤ) : Except String (List String) :=
  if count ≤ 0 then Except.error "invalid catalog size" else Except.ok (precacheVideos count)

/-- Model of `precacheVideos` as an `Except` computation, reflecting that the JS function
contains no throw and no rejection path: it always returns normally. -/
def precacheVideosE (numVideos : ℤ) : Except String (List String) :=
  Except.ok (precacheVideos numVideos)

/-- Model of `updateTimeStats(lastTimestamp, avgDelta, timestamp)` from `rem.js`.
The sentinel for "no prior sample" is `lastTimestamp == 0`. -/
def updateTimeStats (lastTimestamp avgDelta timestamp : ℚ) : ℚ × ℚ :=
  let lastTimestamp := if lastTimestamp = 0 then timestamp else lastTimestamp
  let delta := timestamp - lastTimestamp
  let lastTimestamp := timestamp
  let avgDelta := avgDelta * (9 / 10 : ℚ) + delta * (1 / 10 : ℚ)
  (lastTimestamp, avgDelta)

/-- The video-selection loop of `blink`:
`do { newVideoIndex = Math.floor(Math.random() * numVideos); }
 while (newVideoIndex === currentVideoIndex && numVideos > 1);`
modelled over an explicit list of random draws (each draw is the value of
`Math.floor(Math.random() * numVideos)`); an exhausted list means the loop
has not yet terminated. -/
def pickVideoLoop (numVideos currentVideoIndex : Nat) : List Nat → Option Nat
  | [] => none
  | d :: ds =>
    if d = currentVideoIndex ∧ numVideos > 1 then pickVideoLoop numVideos currentVideoIndex ds
    else some d

/-- A scheduled gain-automation event on a `GainNode`'s `gain` AudioParam. -/
inductive GainEvent where
  | setValueAtTime (value time : ℚ)
  | linearRampToValueAtTime (value time : ℚ)
deriving DecidableEq

/-- An `AudioBufferSourceNode` as configured by `rem.js`: loop window, start
offset, the gain node it is connected to (`none` = `audioContext.destination`),
and whether it is currently playing (started and not yet stopped). -/
structure AudioUnit where
  loop : Bool
  loopStart : ℚ
  loopEnd : ℚ
  offset : ℚ
  gainNode : Option Nat
  playing : Bool
deriving DecidableEq

/-- The audio world: `audioContext.currentTime`, every source node ever created
(a node's id is its index of creation), the event list of each gain node, and
the `setTimeout` teardown callbacks not yet fired, as `(delay ms, source id)`. -/
structure AudioCtx where
  currentTime : ℚ
  units : List AudioUnit
  gains : List (List GainEvent)
  pending : List (ℚ × Nat)
deriving DecidableEq

/-- Append a gain-automation event to gain node `g`. -/
def AudioCtx.schedule (c : AudioCtx) (g : Nat) (e : GainEvent) : AudioCtx :=
  { c with gains := c.gains.set g ((c.gains.getD g []) ++ [e]) }

/-- Model of `source.stop()` on an `AudioBufferSourceNode`: succeeds when the node is
playing; throws `InvalidStateError` when it was already stopped. -/
def audioSourceStop (c : AudioCtx) (uid : Nat) : Except String AudioCtx :=
  match c.units[uid]? with
  | some u =>
    if u.playing then Except.ok { c with units := c.units.set uid { u with playing := false } }
    else Except.error "InvalidStateError"
  | none => Except.error "InvalidStateError"

/-- The `setTimeout` callback body of `playAudioWithCrossfade`:
`try { activeSource.stop(); } catch (e) { /- may already be stopped -/ }` —
the catch swallows the error, so the callback always returns normally. -/
def teardownCallback (c : AudioCtx) (uid : Nat) : AudioCtx :=
  match audioSourceStop c uid with
  | Except.ok c2 => c2
  | Except.error _ => c

/-- Fire every pending `setTimeout` teardown, in scheduling order. -/
def firePending (c : AudioCtx) : AudioCtx :=
  c.pending.foldl (fun acc p => teardownCallback acc p.2) { c with pending := [] }

/-- Model of `playAudioWithCrossfade(audioContext, audioBuffer, activeSource, activeGain,
inactiveGain, startTime, crossfadeDuration = 0.005)` from `rem.js`. The buffer
is represented by its duration; the returned `Nat` is the new source node's id. -/
def playAudioWithCrossfade (c : AudioCtx) (bufferDuration : ℚ) (activeSource : Option Nat)
    (activeGain inactiveGain : Nat) (startTime : ℚ) (crossfadeDuration : ℚ := 1 / 200) :
    Nat × AudioCtx :=
  let now := c.currentTime
  let offset := jsRem startTime bufferDuration
  let newId := c.units.length
  let newSource : AudioUnit :=
    { loop := true, loopStart := 0, loopEnd := bufferDuration, offset := offset,
      gainNode := some inactiveGain, playing := true }
  let c := { c with units := c.units ++ [newSource] }
  let c := c.schedule inactiveGain (GainEvent.setValueAtTime 0 now)
  let c := c.schedule activeGain (GainEvent.setValueAtTime 1 now)
  let c := c.schedule activeGain (GainEvent.linearRampToValueAtTime 0 (now + crossfadeDuration))
  let c := c.schedule inactiveGain (GainEvent.setValueAtTime 0 now)
  let c := c.schedule inactiveGain (GainEvent.linearRampToValueAtTime 1 (now + crossfadeDuration))
  let c :=
    match activeSource with
    | some s => { c with pending := c.pending ++ [(crossfadeDuration * 1000 + 100, s)] }
    | none => c
  (newId, c)

/-- Model of `playAudioFrom(audioContext, audioBuffer, currentSource, startTime)` from
`rem.js`. Unlike `playAudioWithCrossfade`, the `currentSource.stop()` here is
not wrapped in try/catch, so a stop on an already-stopped source propagates. -/
def playAudioFrom (c : AudioCtx) (bufferDuration : ℚ) (currentSource : Option Nat)
    (startTime : ℚ) : Except String (Nat × AudioCtx) := do
  let c ←
    match currentSource with
    | some s => audioSourceStop c s
    | none => pure c
  let offset := jsRem startTime bufferDuration
  let newId := c.units.length
  let newSource : AudioUnit :=
    { loop := true, loopStart := 0, loopEnd := bufferDuration, offset := offset,
      gainNode := none, playing := true }
  pure (newId, { c with units := c.units ++ [newSource] })

/-- Number of currently playing source nodes ("live units"). -/
def countPlaying (c : AudioCtx) : Nat :=
  c.units.countP (fun u => u.playing)

/-- A `<video>` element as `blink` manipulates it. -/
structure VideoElem where
  src : String
  loadRequested : Bool
  onloadeddataSet : Bool
  playing : Bool
  opacity : String
  zIndex : String
deriving DecidableEq

/-- The two video elements `blinkVideo1` / `blinkVideo2`; `getElementById`
returns `none` when an element is absent from the document. -/
structure DocState where
  blinkVideo1 : Option VideoElem
  blinkVideo2 : Option VideoElem
deriving DecidableEq

/-- Model of `document.getElementById("blinkVideo" + i)`. -/
def getVideo (d : DocState) (i : Nat) : Option VideoElem :=
  if i = 1 then d.blinkVideo1 else if i = 2 then d.blinkVideo2 else none

/-- Store an updated element back under id `i`. -/
def setVideo (d : DocState) (i : Nat) (v : VideoElem) : DocState :=
  if i = 1 then { d with blinkVideo1 := some v }
  else if i = 2 then { d with blinkVideo2 := some v }
  else d

/-- The `onloadeddata` continuation registered by `blink`: play the newly
loaded (formerly inactive) element, raise it, and hide the formerly active
element. -/
def videoSwapOnLoaded (d : DocState) (activeIndex inactiveIndex : Nat) : DocState :=
  let d :=
    match getVideo d inactiveIndex with
    | some iv => setVideo d inactiveIndex { iv with playing := true, opacity := "1", zIndex := "2" }
    | none => d
  match getVideo d activeIndex with
  | some av => setVideo d activeIndex { av with opacity := "0", zIndex := "1" }
  | none => d

/-- The record returned by `blink`, together with the external state it
mutated (the document and the audio world). -/
structure BlinkOut where
  audioSource1 : Option Nat
  audioSource2 : Option Nat
  activeAudioIndex : Nat
  activeVideoIndex : Nat
  currentVideoIndex : Nat
  doc : DocState
  audio : AudioCtx
deriving DecidableEq

/-- Model of `blink(bcounter, numVideos, audioBuffer, audioContext, audioSource1,
audioSource2, gainNode1, gainNode2, activeAudioIndex, activeVideoIndex,
audioAction, currentVideoIndex)` from `rem.js`. Randomness is supplied
explicitly: `videoDraws` are the successive values of
`Math.floor(Math.random() * numVideos)` and `audioRand` the value of
`Math.random()` used for the jump position. The result is `none` when the
video-selection loop runs past the supplied draws. -/
def blink (bcounter numVideos : Nat) (audioBuffer : Option ℚ) (hasAudioContext : Bool)
    (audio : AudioCtx) (audioSource1 audioSource2 : Option Nat)
    (gainNode1 gainNode2 : Option Nat) (activeAudioIndex activeVideoIndex : Nat)
    (audioAction : String) (currentVideoIndex : Nat) (doc : DocState)
    (videoDraws : List Nat) (audioRand : ℚ) : Option BlinkOut :=
  let _ := bcounter
  let inactiveIndex := if activeVideoIndex = 1 then 2 else 1
  let activeVideo := getVideo doc activeVideoIndex
  let inactiveVideo := getVideo doc inactiveIndex
  (pickVideoLoop numVideos currentVideoIndex videoDraws).map (fun newVideoIndex =>
    let filename := videoFilename (newVideoIndex + 1)
    let doc :=
      match inactiveVideo, activeVideo with
      | some iv, some _ =>
        setVideo doc inactiveIndex
          { iv with src := filename, loadRequested := true, onloadeddataSet := true }
      | _, _ => doc
    let (newAudioSource1, newAudioSource2, newActiveAudioIndex, audio) :=
      match audioBuffer, hasAudioContext, gainNode1, gainNode2 with
      | some dur, true, some g1, some g2 =>
        if audioAction = "start" then
          let source : AudioUnit :=
            { loop := true, loopStart := 0, loopEnd := dur, offset := 0,
              gainNode := some g1, playing := true }
          let newId := audio.units.length
          let audio := { audio with units := audio.units ++ [source] }
          let audio := audio.schedule g1 (GainEvent.setValueAtTime 1 audio.currentTime)
          let audio := audio.schedule g2 (GainEvent.setValueAtTime 0 audio.currentTime)
          (some newId, audioSource2, 1, audio)
        else if audioAction = "jump" then
          let randomTime := audioRand * dur
          let activeSource := if activeAudioIndex = 1 then audioSource1 else audioSource2
          let activeGain := if activeAudioIndex = 1 then g1 else g2
          let inactiveGain := if activeAudioIndex = 1 then g2 else g1
          let inactiveAudioIndex := if activeAudioIndex = 1 then 2 else 1
          let (newSource, audio) :=
            playAudioWithCrossfade audio dur activeSource activeGain inactiveGain randomTime
          if inactiveAudioIndex = 1 then
            (some newSource, audioSource2, inactiveAudioIndex, audio)
          else
            (audioSource1, some newSource, inactiveAudioIndex, audio)
        else (audioSource1, audioSource2, activeAudioIndex, audio)
      | _, _, _, _ => (audioSource1, audioSource2, activeAudioIndex, audio)
    { audioSource1 := newAudioSource1, audioSource2 := newAudioSource2,
      activeAudioIndex := newActiveAudioIndex, activeVideoIndex := inactiveIndex,
      currentVideoIndex := newVideoIndex, doc := doc, audio := audio })

/-! ## Timing statistics tracker -/

/-- C4 counterexample: with the sentinel `lastTimestamp = 0` and a prior
`avgDelta` of 10, `updateTimeStats 0 10 5` returns `avgDelta = 9`, not the
unchanged 10 the claim requires. -/
theorem updateTimeStats_sentinel_changes_avg :
    updateTimeStats 0 10 5 = (5, 9) ∧ (updateTimeStats 0 10 5).2 ≠ 10 := by
  unfold updateTimeStats
  norm_num

/-- C4 (amended): when `lastTimestamp` is the sentinel 0, `updateTimeStats`
sets `lastTimestamp` to the new timestamp and multiplies `avgDelta` by 0.9
(the zero delta is still fed into the moving average); `avgDelta` is returned
unchanged exactly when it is 0. -/
theorem updateTimeStats_sentinel (avgDelta timestamp : ℚ) :
    updateTimeStats 0 avgDelta timestamp = (timestamp, avgDelta * (9 / 10)) := by
  unfold updateTimeStats
  norm_num

/-- C8: with a non-sentinel `lastTimestamp`, `updateTimeStats` returns the new
timestamp and the exponential moving average
`0.9 * avgDelta + 0.1 * (timestamp - lastTimestamp)`, for every timestamp —
including timestamps equal to or earlier than `lastTimestamp` (zero or
negative delta); the function is total, so no error is raised. -/
theorem updateTimeStats_ema (lastTimestamp avgDelta timestamp : ℚ)
    (h : lastTimestamp ≠ 0) :
    updateTimeStats lastTimestamp avgDelta timestamp =
      (timestamp, avgDelta * (9 / 10) + (timestamp - lastTimestamp) * (1 / 10)) := by
  unfold updateTimeStats
  simp [h]

/-- C8 witness: a concrete non-sentinel state with a negative delta. -/
theorem updateTimeStats_ema_witness :
    updateTimeStats 2 0 1 = (1, 0 * (9 / 10) + ((1 : ℚ) - 2) * (1 / 10)) :=
  updateTimeStats_ema 2 0 1 (by decide)

/-! ## Media asset catalog -/

/-- Closed form of the `precacheVideos` loop. -/
theorem precacheAux_eq (numVideos : ℤ) (i : Nat) (acc : List String) :
    precacheAux numVideos i acc =
      acc ++ (List.range (numVideos - i).toNat).map (fun k => videoFilename (i + k + 1)) := by
  induction i, acc using precacheAux.induct numVideos with
  | case1 i acc h ih =>
    rw [precacheAux, if_pos h, ih]
    have hm : (numVideos - i).toNat = (numVideos - (i + 1)).toNat + 1 := by omega
    rw [hm, List.range_succ_eq_map]
    simp only [List.map_cons, List.map_map, List.append_assoc, List.singleton_append,
      Function.comp, Nat.succ_eq_add_one, Nat.add_zero]
    push_cast
    congr 1
    congr 1
    apply List.map_congr_left
    intro k _
    congr 1
    omega
  | case2 i acc h =>
    rw [precacheAux, if_neg h]
    have hm : (numVideos - i).toNat = 0 := by omega
    simp [hm]

/-- C7 counterexample: `precacheVideos` never reports a rejection — at
`count = 0` it returns normally with the empty list, where the specification's
`buildCatalog` contract demands a reported error. -/
theorem precacheVideos_no_rejection_cex :
    precacheVideosE 0 ≠ buildCatalogSpec 0 ∧ precacheVideos 0 = [] := by
  have h0 : precacheVideos 0 = [] := by
    unfold precacheVideos
    rw [precacheAux]
    norm_num
  refine ⟨?_, h0⟩
  unfold precacheVideosE buildCatalogSpec
  rw [if_pos (by norm_num)]
  exact fun h => Except.noConfusion h

/-- C7 (amended): `precacheVideos` is pure and deterministic and never
rejects: for `count ≤ 0` it returns the empty list (no error is reported),
and for every positive `count` it returns the ordered sequence of exactly
`count` clip paths, the `i`-th being `vid/NNN.mp4` for clip number `i + 1`. -/
theorem precacheVideos_returns_count (numVideos : ℤ) :
    (numVideos ≤ 0 → precacheVideos numVideos = []) ∧
    (precacheVideos numVideos).length = numVideos.toNat ∧
    (∀ i : Nat, i < numVideos.toNat →
      (precacheVideos numVideos).get? i = some (videoFilename (i + 1))) := by
  have hform : precacheVideos numVideos =
      (List.range numVideos.toNat).map (fun k => videoFilename (k + 1)) := by
    unfold precacheVideos
    rw [precacheAux_eq]
    simp
  refine ⟨?_, ?_, ?_⟩
  · intro hle
    rw [hform]
    have : numVideos.toNat = 0 := by omega
    simp [this]
  · rw [hform]
    simp
  · intro i hi
    rw [hform, List.get?_map, List.get?_range hi]
    rfl

/-- C7 witness: concrete counts on both sides of zero. -/
theorem precacheVideos_returns_count_witness :
    precacheVideos (-3) = [] ∧ (precacheVideos 2).length = (2 : ℤ).toNat ∧
      (precacheVideos 2).get? 1 = some (videoFilename 2) :=
  ⟨(precacheVideos_returns_count (-3)).1 (by norm_num),
   (precacheVideos_returns_count 2).2.1,
   (precacheVideos_returns_count 2).2.2 1 (by norm_num)⟩

/-- C3: whenever each random draw is in `[0, numVideos)` (as
`Math.floor(Math.random() * numVideos)` is), any identifier the selection loop
returns is in `[0, numVideos)` and, for catalogs of more than one entry, is
never the excluded `currentVideoIndex`; for a single-entry catalog the first
draw — necessarily the single identifier 0 — is returned directly. -/
theorem pickVideoLoop_sound (numVideos currentVideoIndex : Nat) (draws : List Nat)
    (hd : ∀ d ∈ draws, d < numVideos) :
    (∀ r, pickVideoLoop numVideos currentVideoIndex draws = some r →
      r < numVideos ∧ (1 < numVideos → r ≠ currentVideoIndex)) ∧
    (numVideos = 1 → ∀ d ds, draws = d :: ds →
      pickVideoLoop numVideos currentVideoIndex draws = some 0) := by
  induction draws with
  | nil =>
    refine ⟨fun r hr => by simp [pickVideoLoop] at hr, fun _ d ds hds => by cases hds⟩
  | cons d ds ih =>
    have hdlt : d < numVideos := hd d (List.mem_cons_self d ds)
    have hds : ∀ e ∈ ds, e < numVideos := fun e he => hd e (List.mem_cons_of_mem d he)
    by_cases hc : d = currentVideoIndex ∧ numVideos > 1
    · refine ⟨?_, ?_⟩
      · intro r hr
        rw [pickVideoLoop, if_pos hc] at hr
        exact (ih hds).1 r hr
      · intro h1
        omega
    · refine ⟨?_, ?_⟩
      · intro r hr
        rw [pickVideoLoop, if_neg hc] at hr
        cases hr
        exact ⟨hdlt, fun h1 => fun heq => hc ⟨heq, h1⟩⟩
      · intro h1 e es hes
        cases hes
        rw [pickVideoLoop, if_neg hc]
        have : d = 0 := by omega
        rw [this]

/-- C3 witness: catalog of 3 clips, excluding clip 1, draws `[1, 2]`. -/
theorem pickVideoLoop_sound_witness : 2 < 3 ∧ (1 < 3 → 2 ≠ 1) :=
  (pickVideoLoop_sound 3 1 [1, 2] (by decide)).1 2 (by decide)

/-- On a draw stream that always produces the excluded index, the selection
loop of `blink` never terminates (for a catalog of 2 clips, excluding 0). -/
theorem pickVideoLoop_replicate_none (k : Nat) :
    pickVideoLoop 2 0 (List.replicate k 0) = none := by
  induction k with
  | zero => rfl
  | succ k ih =>
    rw [List.replicate_succ, pickVideoLoop, if_pos (by norm_num)]
    exact ih

/-- C6 counterexample: there is no retry bound `B` such that every in-range
draw stream of length at least `B` makes the selection loop terminate — the
loop is an unbounded rejection sampler for catalogs with more than one
entry. -/
theorem pickVideoLoop_unbounded_cex :
    ¬ ∃ B : Nat, ∀ draws : List Nat, (∀ d ∈ draws, d < 2) →
      B ≤ draws.length → (pickVideoLoop 2 0 draws).isSome := by
  rintro ⟨B, hB⟩
  have h := hB (List.replicate B 0)
    (fun d hd => by rw [List.eq_of_mem_replicate hd]; norm_num)
    (by simp)
  rw [pickVideoLoop_replicate_none] at h
  exact Bool.noConfusion h

/-- Helper for C6: the selection loop terminates as soon as the draw stream
contains any value different from the excluded index. -/
theorem pickVideoLoop_isSome_of_exists (numVideos currentVideoIndex : Nat) :
    ∀ draws : List Nat, (∃ d ∈ draws, d ≠ currentVideoIndex) →
      (pickVideoLoop numVideos currentVideoIndex draws).isSome := by
  intro draws
  induction draws with
  | nil => rintro ⟨d, hd, _⟩; cases hd
  | cons d ds ih =>
    rintro ⟨e, he, hne⟩
    by_cases hc : d = currentVideoIndex ∧ numVideos > 1
    · rw [pickVideoLoop, if_pos hc]
      apply ih
      refine ⟨e, ?_, hne⟩
      rcases List.mem_cons.mp he with h1 | h1
      · exact absurd (h1.trans hc.1) hne
      · exact h1
    · rw [pickVideoLoop, if_neg hc]
      rfl

/-- C6 (amended): the single-entry catalog is special-cased — the first draw
is returned with no retry at all; for larger catalogs the loop terminates
exactly when some draw differs from the excluded index (any such draw ends
the loop immediately), but the number of retries has no a-priori bound. -/
theorem pickVideoLoop_termination (numVideos currentVideoIndex : Nat)
    (draws : List Nat) :
    (∀ d ds, draws = d :: ds → numVideos = 1 →
      pickVideoLoop numVideos currentVideoIndex draws = some d) ∧
    ((∃ d ∈ draws, d ≠ currentVideoIndex) →
      (pickVideoLoop numVideos currentVideoIndex draws).isSome) := by
  refine ⟨?_, pickVideoLoop_isSome_of_exists numVideos currentVideoIndex draws⟩
  intro d ds hds h1
  cases hds
  rw [pickVideoLoop, if_neg (by omega)]

/-- C6 witness: a single-entry catalog returns the only id at once, and a
two-entry catalog terminates on the draws `[0, 1]`. -/
theorem pickVideoLoop_termination_witness :
    pickVideoLoop 1 0 [0] = some 0 ∧ (pickVideoLoop 2 0 [0, 1]).isSome :=
  ⟨(pickVideoLoop_termination 1 0 [0]).1 0 [] rfl rfl,
   (pickVideoLoop_termination 2 0 [0, 1]).2 ⟨1, by decide, by decide⟩⟩

/-! ## Audio crossfade engine -/

/-- Lemma: `AudioCtx.schedule` touches only the gain event lists. -/
theorem schedule_units (c : AudioCtx) (g : Nat) (e : GainEvent) :
    (c.schedule g e).units = c.units := rfl

/-- Lemma: `AudioCtx.schedule` leaves the pending teardowns alone. -/
theorem schedule_pending (c : AudioCtx) (g : Nat) (e : GainEvent) :
    (c.schedule g e).pending = c.pending := rfl

/-- Characterization of `playAudioWithCrossfade`: the returned id is the new
source's index, the unit list is extended by the one new looping source, and
exactly one teardown for the captured `activeSource` (if any) is appended to
the pending list. -/
theorem playAudioWithCrossfade_spec (c : AudioCtx) (dur start fade : ℚ)
    (src : Option Nat) (ag ig : Nat) :
    (playAudioWithCrossfade c dur src ag ig start fade).1 = c.units.length ∧
    (playAudioWithCrossfade c dur src ag ig start fade).2.units =
      c.units ++ [⟨true, 0, dur, jsRem start dur, some ig, true⟩] ∧
    (playAudioWithCrossfade c dur src ag ig start fade).2.pending =
      c.pending ++
        (match src with | some s => [(fade * 1000 + 100, s)] | none => []) ∧
    (playAudioWithCrossfade c dur src ag ig start fade).2.currentTime =
      c.currentTime := by
  cases src <;>
    simp [playAudioWithCrossfade, AudioCtx.schedule]

/-- For a positive divisor, the JS remainder of a nonnegative dividend lies
in `[0, b)`. -/
theorem jsRem_nonneg_bounds (a b : ℚ) (ha : 0 ≤ a) (hb : 0 < b) :
    0 ≤ jsRem a b ∧ jsRem a b < b := by
  have hdiv : 0 ≤ a / b := div_nonneg ha hb.le
  have htr : jsTrunc (a / b) = ⌊a / b⌋ := by
    unfold jsTrunc
    rw [if_pos hdiv]
  have h1 : ((⌊a / b⌋ : ℤ) : ℚ) ≤ a / b := Int.floor_le _
  have h2 : a / b < (⌊a / b⌋ : ℤ) + 1 := Int.lt_floor_add_one _
  have hba : b * (a / b) = a := mul_div_cancel₀ a hb.ne'
  unfold jsRem
  rw [htr]
  constructor
  · have h3 := mul_le_mul_of_nonneg_left h1 hb.le
    rw [hba] at h3
    linarith
  · have h4 := mul_lt_mul_of_pos_left h2 hb
    rw [mul_add, hba, mul_one] at h4
    linarith

/-- For a positive divisor, the JS remainder of a negative dividend lies in
`(-b, 0]` — it is never mapped back into `[0, b)`. -/
theorem jsRem_neg_bounds (a b : ℚ) (ha : a < 0) (hb : 0 < b) :
    -b < jsRem a b ∧ jsRem a b ≤ 0 := by
  have hdiv : a / b < 0 := div_neg_of_neg_of_pos ha hb
  have htr : jsTrunc (a / b) = ⌈a / b⌉ := by
    unfold jsTrunc
    rw [if_neg (not_le.mpr hdiv)]
  have h1 : a / b ≤ ((⌈a / b⌉ : ℤ) : ℚ) := Int.le_ceil _
  have h2 : ((⌈a / b⌉ : ℤ) : ℚ) < a / b + 1 := Int.ceil_lt_add_one _
  have hba : b * (a / b) = a := mul_div_cancel₀ a hb.ne'
  unfold jsRem
  rw [htr]
  constructor
  · have h4 := mul_lt_mul_of_pos_left h2 hb
    rw [mul_add, hba, mul_one] at h4
    linarith
  · have h3 := mul_le_mul_of_nonneg_left h1 hb.le
    rw [hba] at h3
    linarith

/-- C5 counterexample: at `targetPosition = -1` with buffer duration 10, the
start offset is `-1`, outside `[0, 10)`; concretely, the unit created by
`playAudioFrom` carries offset `-1`. -/
theorem playAudio_offset_cex :
    jsRem (-1) 10 = -1 ∧ ¬ (0 ≤ jsRem (-1 : ℚ) 10) ∧
      (playAudioFrom { currentTime := 0, units := [], gains := [], pending := [] }
          10 none (-1)).map (fun p => p.2.units.map (fun u => u.offset)) =
        Except.ok [(-1 : ℚ)] := by
  have htr : jsTrunc ((-1 : ℚ) / 10) = 0 := by
    unfold jsTrunc
    rw [if_neg (by norm_num)]
    rw [Int.ceil_eq_zero_iff]
    constructor <;> norm_num
  have h1 : jsRem (-1) 10 = -1 := by
    unfold jsRem
    rw [htr]
    norm_num
  refine ⟨h1, by rw [h1]; norm_num, ?_⟩
  simp only [playAudioFrom, pure, Except.pure, Except.bind, Except.map, List.nil_append,
    List.map_cons, List.map_nil, h1]
  rfl

/-- C5 (amended): every unit created by `playAudioWithCrossfade` or
`playAudioFrom` loops its entire buffer (`loop = true`, `loopStart = 0`,
`loopEnd = bufferDuration`) and starts at offset `startTime % bufferDuration`
in the JS sense: within `[0, bufferDuration)` when `startTime ≥ 0`, but within
`(-bufferDuration, 0]` — not remapped into range — when `startTime < 0`. -/
theorem playAudio_offset_loop (c : AudioCtx) (dur start fade : ℚ)
    (src cs : Option Nat) (ag ig : Nat) (hb : 0 < dur) :
    (∀ newId c2,
      playAudioWithCrossfade c dur src ag ig start fade = (newId, c2) →
      c2.units[newId]? = some ⟨true, 0, dur, jsRem start dur, some ig, true⟩) ∧
    (∀ newId c2, playAudioFrom c dur cs start = Except.ok (newId, c2) →
      c2.units[newId]? = some ⟨true, 0, dur, jsRem start dur, none, true⟩) ∧
    (0 ≤ start → 0 ≤ jsRem start dur ∧ jsRem start dur < dur) ∧
    (start < 0 → -dur < jsRem start dur ∧ jsRem start dur ≤ 0) := by
  refine ⟨?_, ?_, fun hs => jsRem_nonneg_bounds start dur hs hb,
    fun hs => jsRem_neg_bounds start dur hs hb⟩
  · intro newId c2 h
    have e1 : newId = (playAudioWithCrossfade c dur src ag ig start fade).1 := by rw [h]
    have e2 : c2 = (playAudioWithCrossfade c dur src ag ig start fade).2 := by rw [h]
    obtain ⟨hid, hunits, -, -⟩ := playAudioWithCrossfade_spec c dur start fade src ag ig
    rw [e2, hunits, e1, hid]
    exact List.getElem?_concat_length _ _
  · intro newId c2 h
    cases cs with
    | none =>
      simp only [playAudioFrom, pure, Except.pure, Except.bind] at h
      cases h
      exact List.getElem?_concat_length _ _
    | some s =>
      simp only [playAudioFrom, pure, Except.pure, Except.bind] at h
      cases hstop : audioSourceStop c s with
      | error e => rw [hstop] at h; cases h
      | ok c' =>
        rw [hstop] at h
        cases h
        exact List.getElem?_concat_length _ _

/-- Setting a playing unit to a stopped one decreases the live count by one. -/
theorem countP_set_stop (l : List AudioUnit) (i : Nat) (u u' : AudioUnit)
    (h : l[i]? = some u) (hu : u.playing = true) (hu' : u'.playing = false) :
    (l.set i u').countP (fun x => x.playing) + 1 = l.countP (fun x => x.playing) := by
  induction l generalizing i with
  | nil => simp at h
  | cons x xs ih =>
    cases i with
    | zero =>
      simp only [List.getElem?_cons_zero, Option.some.injEq] at h
      subst h
      simp [List.countP_cons, hu, hu']
    | succ j =>
      simp only [List.getElem?_cons_succ] at h
      simp only [List.set_cons_succ, List.countP_cons]
      have := ih j h
      omega

/-- C5 witness: with buffer duration 10, the amended range facts at concrete
nonnegative and negative target positions. -/
theorem playAudio_offset_loop_witness :
    (0 ≤ (3 : ℚ) → 0 ≤ jsRem 3 10 ∧ jsRem 3 10 < 10) ∧
    ((-1 : ℚ) < 0 → -10 < jsRem (-1) 10 ∧ jsRem (-1) 10 ≤ 0) :=
  ⟨(playAudio_offset_loop { currentTime := 0, units := [], gains := [], pending := [] }
      10 3 (1 / 200) none none 0 0 (by norm_num)).2.2.1,
   (playAudio_offset_loop { currentTime := 0, units := [], gains := [], pending := [] }
      10 (-1) (1 / 200) none none 0 0 (by norm_num)).2.2.2⟩

/-- C1: two overlapping `playAudioWithCrossfade` calls (the second issued
before the first's scheduled teardown has fired). Each call's scheduled
teardown targets exactly the source that was active when that call was issued
(`a` for the first call, the first call's new source `n1` for the second),
never a later one; stopping an already-stopped source is a no-op that never
throws (the callback catches the `InvalidStateError`); and once both fade
windows have elapsed, exactly one live unit (the second call's new source
`n2`) remains. -/
theorem crossfade_reentrancy (c0 : AudioCtx) (dur t1 t2 f1 f2 : ℚ) (ag ig : Nat)
    (a : Nat) (ua : AudioUnit) (n1 n2 : Nat) (c1 c2 : AudioCtx)
    (hp : c0.pending = [])
    (ha : c0.units[a]? = some ua) (hap : ua.playing = true)
    (hcount : countPlaying c0 = 1)
    (h1 : playAudioWithCrossfade c0 dur (some a) ag ig t1 f1 = (n1, c1))
    (h2 : playAudioWithCrossfade c1 dur (some n1) ag ig t2 f2 = (n2, c2)) :
    c2.pending.map Prod.snd = [a, n1] ∧
    (firePending c2).units[a]?.map (fun u => u.playing) = some false ∧
    (firePending c2).units[n1]?.map (fun u => u.playing) = some false ∧
    (firePending c2).units[n2]?.map (fun u => u.playing) = some true ∧
    countPlaying (firePending c2) = 1 ∧
    (∀ c : AudioCtx, ∀ uid : Nat, (c.units[uid]?.all fun u => !u.playing) →
      teardownCallback c uid = c) := by
  have ha' : a < c0.units.length := by
    rcases List.getElem?_eq_some.mp ha with ⟨hlt, -⟩
    exact hlt
  obtain ⟨s1id, s1units, s1pending, -⟩ :=
    playAudioWithCrossfade_spec c0 dur t1 f1 (some a) ag ig
  obtain ⟨s2id, s2units, s2pending, -⟩ :=
    playAudioWithCrossfade_spec c1 dur t2 f2 (some n1) ag ig
  have en1 : n1 = c0.units.length := by
    have e : (playAudioWithCrossfade c0 dur (some a) ag ig t1 f1).1 = n1 := by rw [h1]
    rw [← e, s1id]
  have ec1 : c1 = (playAudioWithCrossfade c0 dur (some a) ag ig t1 f1).2 := by rw [h1]
  have en2 : n2 = c1.units.length := by
    have e : (playAudioWithCrossfade c1 dur (some n1) ag ig t2 f2).1 = n2 := by rw [h2]
    rw [← e, s2id]
  have ec2 : c2 = (playAudioWithCrossfade c1 dur (some n1) ag ig t2 f2).2 := by rw [h2]
  set u1 : AudioUnit := ⟨true, 0, dur, jsRem t1 dur, some ig, true⟩ with hu1
  set u2 : AudioUnit := ⟨true, 0, dur, jsRem t2 dur, some ig, true⟩ with hu2
  have hc1units : c1.units = c0.units ++ [u1] := by rw [ec1, s1units]
  have hc2units : c2.units = c0.units ++ [u1] ++ [u2] := by rw [ec2, s2units, hc1units]
  have hc1pending : c1.pending = [(f1 * 1000 + 100, a)] := by
    rw [ec1, s1pending, hp]
    rfl
  have hc2pending : c2.pending = [(f1 * 1000 + 100, a), (f2 * 1000 + 100, n1)] := by
    rw [ec2, s2pending, hc1pending]
    rfl
  have hlen : n1 = c0.units.length := en1
  have hn2 : n2 = c0.units.length + 1 := by
    rw [en2, hc1units]
    simp
  -- the no-op property of the teardown callback
  have noop : ∀ c : AudioCtx, ∀ uid : Nat, (c.units[uid]?.all fun u => !u.playing) →
      teardownCallback c uid = c := by
    intro c uid h
    unfold teardownCallback audioSourceStop
    cases huid : c.units[uid]? with
    | none => rfl
    | some u =>
      rw [huid] at h
      simp only [Option.all_some, Bool.not_eq_true'] at h
      simp [h]
  set L := c0.units ++ [u1] ++ [u2] with hL
  set uaStopped := { ua with playing := false } with huaS
  set u1Stopped := { u1 with playing := false } with hu1S
  set B : AudioCtx := { c2 with pending := [] } with hB
  -- compute the state after both teardowns fire
  have hfire : firePending c2 = teardownCallback (teardownCallback B a) n1 := by
    unfold firePending
    rw [hc2pending]
    rfl
  have hbunits : B.units = L := by rw [hB]; exact hc2units
  have hLget_a : L[a]? = some ua := by
    rw [hL, List.getElem?_append_left (by simp; omega), List.getElem?_append_left ha', ha]
  -- first teardown: stops `a`, the unit active when the first call was issued
  have hstep1 : teardownCallback B a = { B with units := L.set a uaStopped } := by
    unfold teardownCallback audioSourceStop
    rw [hbunits, hLget_a]
    simp only [hap, if_pos]
  -- second teardown: stops `n1`, the unit active when the second call was issued
  have hgetn1 : (L.set a uaStopped)[n1]? = some u1 := by
    rw [List.getElem?_set_ne (by omega), hlen, hL,
      List.getElem?_append_left (by simp),
      List.getElem?_concat_length]
  have hstep2 : teardownCallback { B with units := L.set a uaStopped } n1 =
      { B with units := (L.set a uaStopped).set n1 u1Stopped } := by
    unfold teardownCallback audioSourceStop
    simp only [hgetn1]
    rfl
  rw [hfire, hstep1, hstep2]
  set final := (L.set a uaStopped).set n1 u1Stopped with hfinal
  have hLlen : L.length = c0.units.length + 2 := by simp [hL]
  refine ⟨by rw [hc2pending]; rfl, ?_, ?_, ?_, ?_, noop⟩
  · -- unit `a` is stopped
    rw [show ({ B with units := final } : AudioCtx).units = final from rfl]
    rw [hfinal, List.getElem?_set_ne (by omega), List.getElem?_set_self (by omega)]
    rw [huaS]
    rfl
  · -- unit `n1` is stopped
    rw [show ({ B with units := final } : AudioCtx).units = final from rfl]
    rw [hfinal, List.getElem?_set_self (by simp [List.length_set]; omega)]
    rw [hu1S]
    rfl
  · -- unit `n2` is still playing
    rw [show ({ B with units := final } : AudioCtx).units = final from rfl]
    rw [hfinal, List.getElem?_set_ne (by omega), List.getElem?_set_ne (by omega), hL, hn2]
    rw [show c0.units.length + 1 = (c0.units ++ [u1]).length by simp,
      List.getElem?_concat_length]
    rfl
  · -- exactly one live unit remains
    have hLcount : L.countP (fun x => x.playing) = 3 := by
      rw [hL]
      rw [List.countP_append, List.countP_append]
      unfold countPlaying at hcount
      rw [hcount]
      rfl
    have h1c := countP_set_stop L a ua uaStopped hLget_a hap (by rw [huaS])
    have h2c := countP_set_stop (L.set a uaStopped) n1 u1 u1Stopped hgetn1 rfl (by rw [hu1S])
    unfold countPlaying
    rw [show ({ B with units := final } : AudioCtx).units = final from rfl, hfinal]
    omega

/-- C1 witness: a world holding one playing unit (id 0), crossfaded twice in
a row before any teardown fires; after both teardowns exactly one live unit
remains. -/
theorem crossfade_reentrancy_witness :
    countPlaying (firePending
      (playAudioWithCrossfade
        (playAudioWithCrossfade ⟨0, [⟨true, 0, 10, 0, some 0, true⟩], [[], []], []⟩
          10 (some 0) 0 1 1 (1 / 200)).2
        10 (some 1) 0 1 2 (1 / 200)).2) = 1 :=
  (crossfade_reentrancy ⟨0, [⟨true, 0, 10, 0, some 0, true⟩], [[], []], []⟩ 10 1 2
    (1 / 200) (1 / 200) 0 1 0 ⟨true, 0, 10, 0, some 0, true⟩ 1 2 _ _
    rfl rfl rfl rfl rfl rfl).2.2.2.2.1

/-! ## Trigger orchestrator (`blink`) -/

/-- C9: a trigger with `audioAction = 'none'` leaves the audio completely
alone: the returned `audioSource1`, `audioSource2` and `activeAudioIndex`
equal the inputs, and the audio world (units, gain schedules, pending
teardowns) is untouched. -/
theorem blink_none_preserves_audio (bcounter numVideos : Nat) (audioBuffer : Option ℚ)
    (hasAudioContext : Bool) (audio : AudioCtx) (as1 as2 g1 g2 : Option Nat)
    (aai avi cvi : Nat) (doc : DocState) (draws : List Nat) (ar : ℚ) (r : BlinkOut)
    (h : blink bcounter numVideos audioBuffer hasAudioContext audio as1 as2 g1 g2 aai avi
      "none" cvi doc draws ar = some r) :
    r.audioSource1 = as1 ∧ r.audioSource2 = as2 ∧ r.activeAudioIndex = aai ∧
      r.audio = audio := by
  have hns : ¬ ("none" = "start") := by decide
  have hnj : ¬ ("none" = "jump") := by decide
  unfold blink at h
  cases hpick : pickVideoLoop numVideos cvi draws with
  | none => rw [hpick] at h; cases h
  | some v =>
    rw [hpick] at h
    simp only [Option.map_some'] at h
    cases h
    cases audioBuffer <;> cases hasAudioContext <;> cases g1 <;> cases g2 <;>
      simp [hns, hnj]

/-- C9 witness: a concrete trigger with action `none`. -/
theorem blink_none_preserves_audio_witness :
    (⟨none, none, 1, 2, 1, ⟨none, none⟩, ⟨0, [], [], []⟩⟩ : BlinkOut).audioSource1 = none ∧
    (⟨none, none, 1, 2, 1, ⟨none, none⟩, ⟨0, [], [], []⟩⟩ : BlinkOut).audioSource2 = none ∧
    (⟨none, none, 1, 2, 1, ⟨none, none⟩, ⟨0, [], [], []⟩⟩ : BlinkOut).activeAudioIndex = 1 ∧
    (⟨none, none, 1, 2, 1, ⟨none, none⟩, ⟨0, [], [], []⟩⟩ : BlinkOut).audio = ⟨0, [], [], []⟩ :=
  blink_none_preserves_audio 0 2 none false ⟨0, [], [], []⟩ none none none none 1 1 0
    ⟨none, none⟩ [1] 0 ⟨none, none, 1, 2, 1, ⟨none, none⟩, ⟨0, [], [], []⟩⟩ rfl

/-- C10: for the two meaningful values 1 and 2 of `activeVideoIndex`, `blink`
always returns the opposite index (1 ↦ 2, 2 ↦ 1): the flip is computed up
front and is independent of the document — it happens even when one or both
video elements are absent, and before (or without) the load continuation
firing. -/
theorem blink_flips_active_video (bcounter numVideos : Nat) (audioBuffer : Option ℚ)
    (hasAudioContext : Bool) (audio : AudioCtx) (as1 as2 g1 g2 : Option Nat)
    (aai avi cvi : Nat) (audioAction : String) (doc : DocState) (draws : List Nat)
    (ar : ℚ) (r : BlinkOut)
    (havi : avi = 1 ∨ avi = 2)
    (h : blink bcounter numVideos audioBuffer hasAudioContext audio as1 as2 g1 g2 aai avi
      audioAction cvi doc draws ar = some r) :
    r.activeVideoIndex = 3 - avi ∧ r.activeVideoIndex ≠ avi := by
  unfold blink at h
  cases hpick : pickVideoLoop numVideos cvi draws with
  | none => rw [hpick] at h; cases h
  | some v =>
    rw [hpick] at h
    simp only [Option.map_some'] at h
    injection h with h
    have hval : r.activeVideoIndex = if avi = 1 then 2 else 1 := by rw [← h]
    rcases havi with rfl | rfl <;> rw [hval] <;> exact ⟨by norm_num, by norm_num⟩

/-- C10 witness: both video elements absent, `activeVideoIndex = 2`. -/
theorem blink_flips_active_video_witness :
    (⟨none, none, 1, 1, 1, ⟨none, none⟩, ⟨0, [], [], []⟩⟩ : BlinkOut).activeVideoIndex = 3 - 2 ∧
    (⟨none, none, 1, 1, 1, ⟨none, none⟩, ⟨0, [], [], []⟩⟩ : BlinkOut).activeVideoIndex ≠ 2 :=
  blink_flips_active_video 0 2 none false ⟨0, [], [], []⟩ none none none none 1 2 0 "none"
    ⟨none, none⟩ [1] 0 ⟨none, none, 1, 1, 1, ⟨none, none⟩, ⟨0, [], [], []⟩⟩ (Or.inr rfl) rfl

/-- C2 counterexample: a `jump` issued before any `start` (both audio source
slots empty) is not rejected and does not leave the audio state unchanged —
`blink` performs a crossfade: the active slot flips to 2 and a freshly created
source is stored in slot 2. -/
theorem blink_jump_before_start_cex :
    (blink 0 2 (some 10) true ⟨0, [], [[], []], []⟩ none none (some 0) (some 1) 1 1 "jump" 0
        ⟨none, none⟩ [1] (1 / 2)).map (fun r => (r.activeAudioIndex, r.audioSource2)) =
      some (2, some 0) := rfl

/-- C2 (amended): `blink` never validates `audioAction` against the current
audio state. A `start` when audio has already started (slot 1 holds source
`s`) silently starts a second unit: a fresh source is created and stored in
slot 1, the active index is forced to 1, no teardown is scheduled for `s`,
and `s`'s own state is untouched (it keeps playing). A `jump` before any
start silently crossfades from an absent source: the active slot flips, a
fresh source lands in the vacated slot, and no teardown is scheduled. In
neither case is an error reported or the state left unchanged. -/
theorem blink_no_action_validation (bcounter numVideos : Nat) (dur : ℚ)
    (audio : AudioCtx) (as2 : Option Nat) (g1 g2 : Nat) (aai avi cvi : Nat)
    (doc : DocState) (draws : List Nat) (ar : ℚ) (r r' : BlinkOut) (s : Nat)
    (hs : s < audio.units.length)
    (hstart : blink bcounter numVideos (some dur) true audio (some s) as2 (some g1)
      (some g2) aai avi "start" cvi doc draws ar = some r)
    (hjump : blink bcounter numVideos (some dur) true audio none none (some g1)
      (some g2) aai avi "jump" cvi doc draws ar = some r') :
    (r.audioSource1 = some audio.units.length ∧ r.activeAudioIndex = 1 ∧
      r.audio.units[s]? = audio.units[s]? ∧ r.audio.pending = audio.pending) ∧
    (r'.activeAudioIndex = (if aai = 1 then 2 else 1) ∧
      (if aai = 1 then r'.audioSource2 else r'.audioSource1) = some audio.units.length ∧
      r'.audio.pending = audio.pending) := by
  have hjs : ¬ (("jump" : String) = "start") := by decide
  unfold blink at hstart hjump
  cases hpick : pickVideoLoop numVideos cvi draws with
  | none => rw [hpick] at hstart; cases hstart
  | some v =>
    rw [hpick] at hstart hjump
    simp only [Option.map_some'] at hstart hjump
    cases hstart
    cases hjump
    constructor
    · exact ⟨rfl, rfl, List.getElem?_append_left hs, rfl⟩
    · by_cases haai : aai = 1 <;>
        simp [haai, hjs, playAudioWithCrossfade_spec, AudioCtx.schedule]

/-- C2 witness: one playing unit in slot 1; a second `start` stacks a second
unit without stopping the first, and a pre-start `jump` flips the slot and
creates a source. -/
theorem blink_no_action_validation_witness :
    (((blink 0 2 (some 10) true ⟨0, [⟨true, 0, 10, 0, some 0, true⟩], [[], []], []⟩ (some 0)
          none (some 0) (some 1) 1 1 "start" 0 ⟨none, none⟩ [1] (1 / 2)).getD
        ⟨none, none, 0, 0, 0, ⟨none, none⟩, ⟨0, [], [], []⟩⟩).audioSource1 = some 1 ∧
      ((blink 0 2 (some 10) true ⟨0, [⟨true, 0, 10, 0, some 0, true⟩], [[], []], []⟩ (some 0)
          none (some 0) (some 1) 1 1 "start" 0 ⟨none, none⟩ [1] (1 / 2)).getD
        ⟨none, none, 0, 0, 0, ⟨none, none⟩, ⟨0, [], [], []⟩⟩).activeAudioIndex = 1 ∧
      ((blink 0 2 (some 10) true ⟨0, [⟨true, 0, 10, 0, some 0, true⟩], [[], []], []⟩ (some 0)
          none (some 0) (some 1) 1 1 "start" 0 ⟨none, none⟩ [1] (1 / 2)).getD
        ⟨none, none, 0, 0, 0, ⟨none, none⟩, ⟨0, [], [], []⟩⟩).audio.units[0]? =
        some ⟨true, 0, 10, 0, some 0, true⟩ ∧
      ((blink 0 2 (some 10) true ⟨0, [⟨true, 0, 10, 0, some 0, true⟩], [[], []], []⟩ (some 0)
          none (some 0) (some 1) 1 1 "start" 0 ⟨none, none⟩ [1] (1 / 2)).getD
        ⟨none, none, 0, 0, 0, ⟨none, none⟩, ⟨0, [], [], []⟩⟩).audio.pending = []) ∧
    (((blink 0 2 (some 10) true ⟨0, [⟨true, 0, 10, 0, some 0, true⟩], [[], []], []⟩ none
          none (some 0) (some 1) 1 1 "jump" 0 ⟨none, none⟩ [1] (1 / 2)).getD
        ⟨none, none, 0, 0, 0, ⟨none, none⟩, ⟨0, [], [], []⟩⟩).activeAudioIndex = 2 ∧
      ((blink 0 2 (some 10) true ⟨0, [⟨true, 0, 10, 0, some 0, true⟩], [[], []], []⟩ none
          none (some 0) (some 1) 1 1 "jump" 0 ⟨none, none⟩ [1] (1 / 2)).getD
        ⟨none, none, 0, 0, 0, ⟨none, none⟩, ⟨0, [], [], []⟩⟩).audioSource2 = some 1 ∧
      ((blink 0 2 (some 10) true ⟨0, [⟨true, 0, 10, 0, some 0, true⟩], [[], []], []⟩ none
          none (some 0) (some 1) 1 1 "jump" 0 ⟨none, none⟩ [1] (1 / 2)).getD
        ⟨none, none, 0, 0, 0, ⟨none, none⟩, ⟨0, [], [], []⟩⟩).audio.pending = []) :=
  blink_no_action_validation 0 2 10 ⟨0, [⟨true, 0, 10, 0, some 0, true⟩], [[], []], []⟩
    none 0 1 1 1 0 ⟨none, none⟩ [1] (1 / 2) _ _ 0 (by decide) rfl rfl

end Rem
